import Mathlib

/-!
# Verification of `kedro/contrib/io/yaml_local/yaml_local.py`

A shallow embedding of the `YAMLLocalDataSet` adapter: a versioned dataset
that loads and saves a structured payload to a local YAML file.

The file under `src/` contains only the adapter itself
(`YAMLLocalDataSet` with `DEFAULT_SAVE_ARGS`, `__init__`, `_describe`,
`_load`, `_save`, `_exists`).  Its collaborators — the versioned-dataset
framework (`kedro.io.core`: `AbstractVersionedDataSet`, `Version`,
`deprecation_warning`), the default-arguments mix-in
(`kedro.contrib.io.DefaultArgumentsMixIn`) and the structured-text codec
(PyYAML's `yaml.safe_load` / `yaml.dump`) — are not part of the sources,
so they are modelled from the specification's description of their
contracts; each such definition is marked `Modelled from the spec:`.

The codec is modelled at the level of token streams: a file's contents is
a `List YToken`, the serializer flattens a payload into such a stream and
the safe parser reconstructs it.  YAML tag constructs (the vehicle by
which untrusted input could request construction of arbitrary runtime
types) are present in the token alphabet (`YToken.tTag`) and rejected by
the safe parser.
-/

namespace YamlLocal

/-- A plain YAML payload value: null, booleans, integers, strings,
sequences and mappings.  Mirrors the values `yaml.safe_load` can produce
and the docstring example payload (`{'a_string': ..., 'a_list': [...]}`).
Mappings are association lists keyed by strings. -/
inductive YVal where
  | null : YVal
  | bool (b : Bool) : YVal
  | int (n : Int) : YVal
  | str (s : String) : YVal
  | seq (xs : List YVal) : YVal
  | map (kvs : List (String × YVal)) : YVal

/-- A token of the serialized YAML text stream.  `tTag` stands for a YAML
tag construct (e.g. `!!python/object:...`) that would instruct an unsafe
loader to instantiate an arbitrary runtime type. -/
inductive YToken where
  | tNull : YToken
  | tBool (b : Bool) : YToken
  | tInt (n : Int) : YToken
  | tStr (s : String) : YToken
  | tSeqStart : YToken
  | tSeqEnd : YToken
  | tMapStart : YToken
  | tMapEnd : YToken
  | tKey (k : String) : YToken
  | tTag (t : String) : YToken
deriving DecidableEq, Repr

mutual
/-- Modelled from the spec: the codec's `serialize(Payload, options) →
text_stream` (PyYAML's `yaml.dump`, not under `src/`), with the text
stream abstracted to a token stream.  The serialization options control
only the concrete rendering (flow vs block style), not the token
content, so they do not appear here. -/
def dumpVal : YVal → List YToken
  | .null => [.tNull]
  | .bool b => [.tBool b]
  | .int n => [.tInt n]
  | .str s => [.tStr s]
  | .seq xs => .tSeqStart :: dumpSeq xs ++ [.tSeqEnd]
  | .map kvs => .tMapStart :: dumpMap kvs ++ [.tMapEnd]

/-- Serialize the elements of a sequence, in order. -/
def dumpSeq : List YVal → List YToken
  | [] => []
  | v :: vs => dumpVal v ++ dumpSeq vs

/-- Serialize the key/value entries of a mapping, in order. -/
def dumpMap : List (String × YVal) → List YToken
  | [] => []
  | (k, v) :: kvs => .tKey k :: (dumpVal v ++ dumpMap kvs)
end

mutual
/-- Modelled from the spec: the safe parser's single-value step.  Consumes
one value from the front of the token stream; fuel bounds recursion depth.
Plain scalars, sequences and mappings are accepted; a tag token
(`tTag`) is rejected, as are structurally ill-placed tokens. -/
def parseVal : Nat → List YToken → Option (YVal × List YToken)
  | 0, _ => none
  | _ + 1, [] => none
  | _ + 1, .tNull :: rest => some (.null, rest)
  | _ + 1, .tBool b :: rest => some (.bool b, rest)
  | _ + 1, .tInt n :: rest => some (.int n, rest)
  | _ + 1, .tStr s :: rest => some (.str s, rest)
  | fuel + 1, .tSeqStart :: rest =>
    match parseSeq fuel rest with
    | some (xs, r) => some (.seq xs, r)
    | none => none
  | fuel + 1, .tMapStart :: rest =>
    match parseMap fuel rest with
    | some (kvs, r) => some (.map kvs, r)
    | none => none
  | _ + 1, .tSeqEnd :: _ => none
  | _ + 1, .tMapEnd :: _ => none
  | _ + 1, .tKey _ :: _ => none
  | _ + 1, .tTag _ :: _ => none

/-- Parse the elements of a sequence up to the closing `tSeqEnd`. -/
def parseSeq : Nat → List YToken → Option (List YVal × List YToken)
  | 0, _ => none
  | fuel + 1, ts =>
    match parseVal fuel ts with
    | some (v, r) =>
      match parseSeq fuel r with
      | some (vs, r') => some (v :: vs, r')
      | none => none
    | none =>
      match ts with
      | .tSeqEnd :: rest => some ([], rest)
      | _ => none

/-- Parse the entries of a mapping up to the closing `tMapEnd`. -/
def parseMap : Nat → List YToken → Option (List (String × YVal) × List YToken)
  | 0, _ => none
  | fuel + 1, ts =>
    match ts with
    | .tMapEnd :: rest => some ([], rest)
    | .tKey k :: ts' =>
      match parseVal fuel ts' with
      | some (v, r) =>
        match parseMap fuel r with
        | some (kvs, r') => some ((k, v) :: kvs, r')
        | none => none
      | none => none
    | _ => none
end

/-- Modelled from the spec: the codec's `parse(text_stream) → Payload`
(PyYAML's `yaml.safe_load`, not under `src/`).  An empty document yields
the null value (PyYAML returns `None` for an empty file); otherwise the
stream must parse as exactly one value with no trailing tokens. -/
def yamlSafeLoad (ts : List YToken) : Option YVal :=
  match ts with
  | [] => some .null
  | _ =>
    match parseVal (ts.length + 1) ts with
    | some (v, []) => some v
    | _ => none

/-! ## File system, options and version model -/

/-- A path, as a list of segments (the last segment names the file). -/
abbrev FsPath := List String

/-- A value of a serialization option (the entries of `save_args`). -/
inductive YOpt where
  | bool (b : Bool) : YOpt
  | int (n : Int) : YOpt
  | str (s : String) : YOpt
deriving DecidableEq, Repr

/-- Serialization options, as an association list (a Python `dict`
whose lookup takes the first matching key). -/
abbrev SaveArgs := List (String × YOpt)

/-- Modelled from the spec: `kedro.io.core.Version` (not under `src/`) —
the versioning policy.  `load = none` means "load the latest version";
`save = none` means "autogenerate the save version". -/
structure Version where
  load : Option String
  save : Option String
deriving DecidableEq, Repr

/-- The local file system: a set of directories and a map from paths to
file contents (token streams).  Lookup takes the first matching entry. -/
structure FileSystem where
  dirs : List FsPath
  files : List (FsPath × List YToken)

/-- `Path.is_file`: a regular file is present at `p`. -/
def isFile (fs : FileSystem) (p : FsPath) : Bool :=
  (fs.files.lookup p).isSome

/-- `Path.open("r")` / reading: the contents of the file at `p`, if any. -/
def readFile (fs : FileSystem) (p : FsPath) : Option (List YToken) :=
  fs.files.lookup p

/-- All proper prefixes of `p`: the parent directory of the file at `p`
together with all its ancestors.  `save_path.parent.mkdir(parents=True,
exist_ok=True)` creates exactly these. -/
def parentDirs (p : FsPath) : List FsPath :=
  (List.range p.length).map fun n => p.take n

/-- `save_path.parent.mkdir(parents=True, exist_ok=True)`: create the
parent directory and all its ancestors; existing directories are kept. -/
def mkdirParents (fs : FileSystem) (p : FsPath) : FileSystem :=
  { fs with dirs := parentDirs p ++ fs.dirs }

/-- `save_path.open("w")` followed by a full write: the file at `p` now
holds exactly `content`; any previous content at `p` is unreachable
(truncation + rewrite). -/
def writeFile (fs : FileSystem) (p : FsPath) (content : List YToken) :
    FileSystem :=
  { fs with files := (p, content) :: fs.files }

/-! ## The dataset adapter -/

/-- `DEFAULT_SAVE_ARGS = {"default_flow_style": False}` — the documented
default serialization options (block style). -/
def DEFAULT_SAVE_ARGS : SaveArgs := [("default_flow_style", .bool false)]

/-- Modelled from the spec: `DefaultArgumentsMixIn` (not under `src/`) —
"merges caller-supplied serialization options over a documented default",
caller-supplied values taking precedence.  Mirrors a dict copy of the
default followed by `update(caller)`: default keys first (with the
caller's value where it supplies one), then the caller's new keys. -/
def mergeArgs (dflt caller : SaveArgs) : SaveArgs :=
  (dflt.map fun kv =>
    match caller.lookup kv.1 with
    | some v => (kv.1, v)
    | none => kv) ++
  caller.filter fun kv => (dflt.lookup kv.1).isNone

/-- The dataset handle: `self._filepath`, `self._save_args`,
`self._version` as stored by `__init__` (via the framework base and the
default-arguments mix-in). -/
structure YAMLLocalDataSet where
  filepath : FsPath
  save_args : SaveArgs
  version : Option Version

/-- `YAMLLocalDataSet.__init__`: store the path and versioning policy and
merge the caller's `save_args` (a `None` argument is modelled as
`Option.none`) over `DEFAULT_SAVE_ARGS`. -/
def mkDataSet (filepath : FsPath) (save_args : Option SaveArgs)
    (version : Option Version) : YAMLLocalDataSet :=
  { filepath := filepath
    save_args := mergeArgs DEFAULT_SAVE_ARGS (save_args.getD [])
    version := version }

/-- Modelled from the spec: the versioned-path scheme of
`AbstractVersionedDataSet` (not under `src/`) — a versioned copy lives at
the abstract path extended by the version string. -/
def versionedPath (base : FsPath) (ver : String) : FsPath :=
  base ++ [ver]

/-- Modelled from the spec: resolving "latest" — the first existing
versioned copy under `base`, `none` when no version exists yet. -/
def latestVersionPath (fs : FileSystem) (base : FsPath) : Option FsPath :=
  (fs.files.filterMap fun kv =>
    if kv.1.length = base.length + 1 ∧ kv.1.take base.length = base
    then some kv.1 else none).head?

/-- Modelled from the spec: `_get_load_path` of the versioned framework
(not under `src/`) — no versioning policy resolves to the abstract path
itself; a pinned load version resolves to that versioned copy; an
unpinned policy resolves to the latest existing version and fails
(`none`, the spec's `NoVersionAvailable`) when no version exists yet. -/
def resolveLoadPath (ds : YAMLLocalDataSet) (fs : FileSystem) :
    Option FsPath :=
  match ds.version with
  | none => some ds.filepath
  | some v =>
    match v.load with
    | some l => some (versionedPath ds.filepath l)
    | none => latestVersionPath fs ds.filepath

/-- Modelled from the spec: `_get_save_path` of the versioned framework
(not under `src/`) — no versioning policy resolves to the abstract path;
a pinned save version resolves to that versioned copy; an unpinned save
version is autogenerated (modelled by a fresh fixed version string). -/
def resolveSavePath (ds : YAMLLocalDataSet) : FsPath :=
  match ds.version with
  | none => ds.filepath
  | some v => versionedPath ds.filepath (v.save.getD "autogenerated")

/-- An observable file-system interaction performed by an operation. -/
inductive IOEvent where
  | readF (p : FsPath) : IOEvent
  | writeF (p : FsPath) : IOEvent
  | mkdirP (p : FsPath) : IOEvent
  | statF (p : FsPath) : IOEvent
deriving DecidableEq, Repr

/-- The typed failures of `load` (spec section 7): `noVersion` is the
resolver's `NoVersionAvailable`, `notFound` the `NotFoundError` for an
absent load target, `parseError` the `ParseError` for malformed
contents. -/
inductive LoadError where
  | noVersion : LoadError
  | notFound : LoadError
  | parseError : LoadError
deriving DecidableEq, Repr

/-- `_load`: resolve the load path, open it for reading and parse its
full contents with the safe parser.  The second component records the
file-system interactions performed. -/
def datasetLoad (ds : YAMLLocalDataSet) (fs : FileSystem) :
    Except LoadError YVal × List IOEvent :=
  match resolveLoadPath ds fs with
  | none => (.error .noVersion, [])
  | some p =>
    match readFile fs p with
    | none => (.error .notFound, [])
    | some content =>
      match yamlSafeLoad content with
      | none => (.error .parseError, [.readF p])
      | some v => (.ok v, [.readF p])

/-- `_save`: resolve the save path, create the parent directories
recursively, open the path for writing (truncating) and serialize the
payload with the configured options.  Returns the updated file system
and the file-system interactions performed. -/
def datasetSave (ds : YAMLLocalDataSet) (data : YVal) (fs : FileSystem) :
    FileSystem × List IOEvent :=
  let p := resolveSavePath ds
  let fs1 := mkdirParents fs p
  let fs2 := writeFile fs1 p (dumpVal data)
  (fs2, [.mkdirP p.dropLast, .writeF p])

/-- `_exists`: resolve the load path and report whether a regular file is
present there; a failed resolution (no version yet) yields `false`.  The
only file-system interaction is a stat of the resolved path. -/
def datasetExists (ds : YAMLLocalDataSet) (fs : FileSystem) :
    Bool × List IOEvent :=
  match resolveLoadPath ds fs with
  | none => (false, [])
  | some p => (isFile fs p, [.statF p])

/-- The read-only snapshot returned by `_describe`. -/
structure Description where
  filepath : FsPath
  save_args : SaveArgs
  version : Option Version

/-- `_describe`: `dict(filepath=..., save_args=..., version=...)`.  A
pure function of the handle — it takes no file system, invokes no
resolver and no codec, and performs no file-system interaction. -/
def datasetDescribe (ds : YAMLLocalDataSet) : Description × List IOEvent :=
  ({ filepath := ds.filepath, save_args := ds.save_args,
     version := ds.version }, [])

/-! ## Deprecation notice and call sequences -/

/-- Modelled from the spec: the process-wide registry behind
`kedro.io.core.deprecation_warning` (not under `src/`) — the set of class
names for which the one-time deprecation notice has already been
emitted. -/
structure ProcState where
  warned : List String

/-- Modelled from the spec: `deprecation_warning(class_name)` — emit the
deprecation notice for `class_name` unless one was already emitted for
that class in this process.  Returns whether a notice was emitted. -/
def deprecation_notice (class_name : String) (st : ProcState) :
    Bool × ProcState :=
  if class_name ∈ st.warned then (false, st)
  else (true, { warned := class_name :: st.warned })

/-- `YAMLLocalDataSet.__init__` including its side effect: call
`deprecation_warning` with the class name, then store the merged
arguments. -/
def constructDataSet (filepath : FsPath) (save_args : Option SaveArgs)
    (version : Option Version) (st : ProcState) :
    YAMLLocalDataSet × Bool × ProcState :=
  let w := deprecation_notice "YAMLLocalDataSet" st
  (mkDataSet filepath save_args version, w.1, w.2)

/-- Run a sequence of constructions, counting how many emitted the
deprecation notice and threading the process state. -/
def constructMany :
    List (FsPath × Option SaveArgs × Option Version) → ProcState →
    Nat × ProcState
  | [], st => (0, st)
  | (fp, sa, ver) :: rest, st =>
    let c := constructDataSet fp sa ver st
    let m := constructMany rest c.2.2
    ((if c.2.1 then 1 else 0) + m.1, m.2)

/-- One call on the dataset handle. -/
inductive DsOp where
  | opLoad : DsOp
  | opSave (data : YVal) : DsOp
  | opExists : DsOp
  | opDescribe : DsOp

/-- One call of an operation: none of `_load`, `_save`, `_exists`,
`_describe` assigns to the handle's attributes, so the handle passes
through unchanged; `save` is the only operation that changes the file
system. -/
def runOp (ds : YAMLLocalDataSet) (fs : FileSystem) :
    DsOp → YAMLLocalDataSet × FileSystem
  | .opLoad => (ds, fs)
  | .opSave data => (ds, (datasetSave ds data fs).1)
  | .opExists => (ds, fs)
  | .opDescribe => (ds, fs)

/-- Run a sequence of calls on the handle, threading the file system. -/
def runOps (ds : YAMLLocalDataSet) (fs : FileSystem) :
    List DsOp → YAMLLocalDataSet × FileSystem
  | [] => (ds, fs)
  | op :: ops =>
    let r := runOp ds fs op
    runOps r.1 r.2 ops

/-! ## Concrete fixtures (from the docstring example) -/

/-- The docstring example payload
`{'a_string': 'Hello, World!', 'a_list': [1, 2, 3]}`. -/
def examplePayload : YVal :=
  .map [("a_string", .str "Hello, World!"),
        ("a_list", .seq [.int 1, .int 2, .int 3])]

/-- The docstring example dataset: path `out/config.yml`, no caller
`save_args`, no versioning policy. -/
def exampleDataSet : YAMLLocalDataSet :=
  mkDataSet ["out", "config.yml"] none none

/-- A dataset with an unpinned versioning policy (resolve "latest"). -/
def versionedDataSet : YAMLLocalDataSet :=
  mkDataSet ["data.yml"] none (some { load := none, save := none })

/-- An empty file system: no directories, no files. -/
def emptyFS : FileSystem := { dirs := [], files := [] }

/-- A file system holding one structurally malformed file. -/
def malformedFS : FileSystem :=
  { dirs := [], files := [(["bad.yml"], [.tSeqEnd])] }

/-- The dataset pointing at the malformed file. -/
def malformedDataSet : YAMLLocalDataSet := mkDataSet ["bad.yml"] none none

/-- A file system holding one file that carries an object-construction
tag (the kind of input an unsafe loader would instantiate). -/
def taggedFS : FileSystem :=
  { dirs := [],
    files := [(["obj.yml"],
      [.tTag "tag:yaml.org,2002:python/object:os.system"])] }

/-- The dataset pointing at the tagged file. -/
def taggedDataSet : YAMLLocalDataSet := mkDataSet ["obj.yml"] none none

/-- A file system holding one zero-byte (empty) file. -/
def emptyFileFS : FileSystem := { dirs := [], files := [(["empty.yml"], [])] }

/-- The dataset pointing at the zero-byte file. -/
def emptyFileDataSet : YAMLLocalDataSet := mkDataSet ["empty.yml"] none none

/-! ## Codec lemmas -/

/-- The serializer never produces an empty token stream. -/
theorem dumpVal_ne_nil (v : YVal) : dumpVal v ≠ [] := by
  cases v <;> simp [dumpVal]

/-- The serializer always produces at least one token. -/
theorem one_le_length_dumpVal (v : YVal) : 1 ≤ (dumpVal v).length := by
  have h := dumpVal_ne_nil v
  cases hd : dumpVal v with
  | nil => exact absurd hd h
  | cons a l => simp

/-- A stream starting with a sequence terminator never parses as a value. -/
theorem parseVal_tSeqEnd (fuel : Nat) (rest : List YToken) :
    parseVal fuel (.tSeqEnd :: rest) = none := by
  cases fuel <;> simp [parseVal]

/-- A stream starting with a mapping terminator never parses as a value. -/
theorem parseVal_tMapEnd (fuel : Nat) (rest : List YToken) :
    parseVal fuel (.tMapEnd :: rest) = none := by
  cases fuel <;> simp [parseVal]

/-- Round-trip at the level of the fuelled parsers: given enough fuel,
parsing a serialized value (or sequence body, or mapping body) consumes
exactly the serialized tokens and returns the original structure. -/
theorem parse_dump_aux (fuel : Nat) :
    (∀ (v : YVal) (rest : List YToken), (dumpVal v).length ≤ fuel →
      parseVal fuel (dumpVal v ++ rest) = some (v, rest)) ∧
    (∀ (xs : List YVal) (rest : List YToken), (dumpSeq xs).length + 1 ≤ fuel →
      parseSeq fuel (dumpSeq xs ++ .tSeqEnd :: rest) = some (xs, rest)) ∧
    (∀ (kvs : List (String × YVal)) (rest : List YToken),
      (dumpMap kvs).length + 1 ≤ fuel →
      parseMap fuel (dumpMap kvs ++ .tMapEnd :: rest) = some (kvs, rest)) := by
  induction fuel with
  | zero =>
    refine ⟨?_, ?_, ?_⟩
    · intro v rest h
      exact absurd (le_trans (one_le_length_dumpVal v) h) (by omega)
    · intro xs rest h; omega
    · intro kvs rest h; omega
  | succ n ih =>
    obtain ⟨ihv, ihs, ihm⟩ := ih
    refine ⟨?_, ?_, ?_⟩
    · intro v rest h
      cases v with
      | null => simp [dumpVal, parseVal]
      | bool b => simp [dumpVal, parseVal]
      | int m => simp [dumpVal, parseVal]
      | str s => simp [dumpVal, parseVal]
      | seq xs =>
        have hlen : (dumpSeq xs).length + 1 ≤ n := by
          simp [dumpVal] at h; omega
        simp only [dumpVal, List.cons_append, List.append_assoc, List.cons_append,
          List.nil_append, parseVal]
        rw [ihs xs rest hlen]
      | map kvs =>
        have hlen : (dumpMap kvs).length + 1 ≤ n := by
          simp [dumpVal] at h; omega
        simp only [dumpVal, List.cons_append, List.append_assoc, List.cons_append,
          List.nil_append, parseVal]
        rw [ihm kvs rest hlen]
    · intro xs rest h
      cases xs with
      | nil =>
        simp only [dumpSeq, List.nil_append, parseSeq, parseVal_tSeqEnd]
      | cons v vs =>
        have hv : (dumpVal v).length ≤ n := by
          simp [dumpSeq] at h; omega
        have hvs : (dumpSeq vs).length + 1 ≤ n := by
          have h1 := one_le_length_dumpVal v
          simp [dumpSeq] at h; omega
        simp only [dumpSeq, List.append_assoc, parseSeq,
          ihv v (dumpSeq vs ++ .tSeqEnd :: rest) hv, ihs vs rest hvs]
    · intro kvs rest h
      cases kvs with
      | nil =>
        simp only [dumpMap, List.nil_append, parseMap]
      | cons kv kvs' =>
        obtain ⟨k, v⟩ := kv
        have hv : (dumpVal v).length ≤ n := by
          simp [dumpMap] at h; omega
        have hkvs : (dumpMap kvs').length + 1 ≤ n := by
          simp [dumpMap] at h; omega
        simp only [dumpMap, List.cons_append, List.append_assoc, parseMap,
          ihv v (dumpMap kvs' ++ .tMapEnd :: rest) hv, ihm kvs' rest hkvs]

/-- Round-trip of the codec: safely loading a serialized payload yields
the payload back. -/
theorem yamlSafeLoad_dumpVal (v : YVal) : yamlSafeLoad (dumpVal v) = some v := by
  have hne := dumpVal_ne_nil v
  have h := (parse_dump_aux ((dumpVal v).length + 1)).1 v []
    (by omega)
  simp only [List.append_nil] at h
  cases hd : dumpVal v with
  | nil => exact absurd hd hne
  | cons a l =>
    rw [hd] at h
    simp only [yamlSafeLoad, h]

/-- Safe parsing never consumes a tag token: any tag present in the input
of a successful parse survives into the unconsumed remainder. -/
theorem parse_no_tag (fuel : Nat) :
    (∀ (ts : List YToken) (v : YVal) (rest : List YToken) (s : String),
      parseVal fuel ts = some (v, rest) → YToken.tTag s ∈ ts → YToken.tTag s ∈ rest) ∧
    (∀ (ts : List YToken) (xs : List YVal) (rest : List YToken) (s : String),
      parseSeq fuel ts = some (xs, rest) → YToken.tTag s ∈ ts → YToken.tTag s ∈ rest) ∧
    (∀ (ts : List YToken) (kvs : List (String × YVal)) (rest : List YToken) (s : String),
      parseMap fuel ts = some (kvs, rest) → YToken.tTag s ∈ ts → YToken.tTag s ∈ rest) := by
  induction fuel with
  | zero =>
    refine ⟨?_, ?_, ?_⟩ <;>
      · intro ts a rest s heq hmem
        simp [parseVal, parseSeq, parseMap] at heq
  | succ n ih =>
    obtain ⟨ihv, ihs, ihm⟩ := ih
    refine ⟨?_, ?_, ?_⟩
    · intro ts v rest s heq hmem
      cases ts with
      | nil => simp [parseVal] at heq
      | cons t ts' =>
        cases t with
        | tNull =>
          simp only [parseVal, Option.some.injEq, Prod.mk.injEq] at heq
          obtain ⟨-, h2⟩ := heq
          rw [← h2]
          simpa using hmem
        | tBool b =>
          simp only [parseVal, Option.some.injEq, Prod.mk.injEq] at heq
          obtain ⟨-, h2⟩ := heq
          rw [← h2]
          simpa using hmem
        | tInt m =>
          simp only [parseVal, Option.some.injEq, Prod.mk.injEq] at heq
          obtain ⟨-, h2⟩ := heq
          rw [← h2]
          simpa using hmem
        | tStr s2 =>
          simp only [parseVal, Option.some.injEq, Prod.mk.injEq] at heq
          obtain ⟨-, h2⟩ := heq
          rw [← h2]
          simpa using hmem
        | tSeqStart =>
          simp only [parseVal] at heq
          cases hps : parseSeq n ts' with
          | none => simp [hps] at heq
          | some p =>
            obtain ⟨xs, r⟩ := p
            simp only [hps, Option.some.injEq, Prod.mk.injEq] at heq
            obtain ⟨-, h2⟩ := heq
            rw [← h2]
            exact ihs ts' xs r s hps (by simpa using hmem)
        | tMapStart =>
          simp only [parseVal] at heq
          cases hpm : parseMap n ts' with
          | none => simp [hpm] at heq
          | some p =>
            obtain ⟨kvs, r⟩ := p
            simp only [hpm, Option.some.injEq, Prod.mk.injEq] at heq
            obtain ⟨-, h2⟩ := heq
            rw [← h2]
            exact ihm ts' kvs r s hpm (by simpa using hmem)
        | tSeqEnd => simp [parseVal] at heq
        | tMapEnd => simp [parseVal] at heq
        | tKey k => simp [parseVal] at heq
        | tTag t2 => simp [parseVal] at heq
    · intro ts xs rest s heq hmem
      simp only [parseSeq] at heq
      cases hpv : parseVal n ts with
      | some p =>
        obtain ⟨v, r⟩ := p
        simp only [hpv] at heq
        cases hps : parseSeq n r with
        | none => simp [hps] at heq
        | some q =>
          obtain ⟨vs, r'⟩ := q
          simp only [hps, Option.some.injEq, Prod.mk.injEq] at heq
          obtain ⟨-, h2⟩ := heq
          rw [← h2]
          exact ihs r vs r' s hps (ihv ts v r s hpv hmem)
      | none =>
        simp only [hpv] at heq
        cases ts with
        | nil => simp at heq
        | cons t ts' =>
          cases t <;> simp at heq
          obtain ⟨h1, h2⟩ := heq
          subst h2
          simpa using hmem
    · intro ts kvs rest s heq hmem
      cases ts with
      | nil => simp [parseMap] at heq
      | cons t ts' =>
        cases t with
        | tMapEnd =>
          simp only [parseMap, Option.some.injEq, Prod.mk.injEq] at heq
          obtain ⟨-, h2⟩ := heq
          rw [← h2]
          simpa using hmem
        | tKey k =>
          simp only [parseMap] at heq
          cases hpv : parseVal n ts' with
          | none => simp [hpv] at heq
          | some p =>
            obtain ⟨v, r⟩ := p
            simp only [hpv] at heq
            cases hpm : parseMap n r with
            | none => simp [hpm] at heq
            | some q =>
              obtain ⟨kvs', r'⟩ := q
              simp only [hpm, Option.some.injEq, Prod.mk.injEq] at heq
              obtain ⟨-, h2⟩ := heq
              rw [← h2]
              exact ihm r kvs' r' s hpm (ihv ts' v r s hpv (by simpa using hmem))
        | tNull => simp [parseMap] at heq
        | tBool b => simp [parseMap] at heq
        | tInt m => simp [parseMap] at heq
        | tStr s2 => simp [parseMap] at heq
        | tSeqStart => simp [parseMap] at heq
        | tSeqEnd => simp [parseMap] at heq
        | tMapStart => simp [parseMap] at heq
        | tTag t2 => simp [parseMap] at heq

/-- An input stream containing a tag construct never loads successfully
under safe parsing. -/
theorem yamlSafeLoad_of_tag (ts : List YToken) (s : String)
    (h : YToken.tTag s ∈ ts) : yamlSafeLoad ts = none := by
  cases ts with
  | nil => simp at h
  | cons t ts' =>
    simp only [yamlSafeLoad]
    cases hpv : parseVal ((t :: ts').length + 1) (t :: ts') with
    | none => rfl
    | some p =>
      obtain ⟨v, rest⟩ := p
      cases rest with
      | nil =>
        have := (parse_no_tag ((t :: ts').length + 1)).1 (t :: ts') v [] s hpv h
        simp at this
      | cons r rs => rfl

/-! ## Lookup lemmas for the options merge -/

/-- Lookup distributes over append: a hit in the front part wins. -/
theorem lookup_append_some {β : Type} (A B : List (String × β))
    (k : String) (v : β) (h : A.lookup k = some v) :
    (A ++ B).lookup k = some v := by
  induction A with
  | nil => simp [List.lookup] at h
  | cons kv A ih =>
    obtain ⟨k1, v1⟩ := kv
    by_cases hk : k = k1
    · subst hk
      simp [List.lookup] at h ⊢
      exact h
    · have hb : (k == k1) = false := by simp [hk]
      simp [List.lookup, hb] at h ⊢
      exact ih h

/-- Lookup distributes over append: a miss in the front part defers to
the back part. -/
theorem lookup_append_none {β : Type} (A B : List (String × β))
    (k : String) (h : A.lookup k = none) :
    (A ++ B).lookup k = B.lookup k := by
  induction A with
  | nil => simp
  | cons kv A ih =>
    obtain ⟨k1, v1⟩ := kv
    by_cases hk : k = k1
    · subst hk
      simp [List.lookup] at h
    · have hb : (k == k1) = false := by simp [hk]
      simp only [List.cons_append, List.lookup, hb] at h ⊢
      exact ih h

/-- Lookup in the default-entries part of `mergeArgs`: each default entry
keeps its key and takes the caller's value when the caller supplies
one. -/
theorem lookup_map_merge (dflt caller : SaveArgs) (k : String) :
    (dflt.map fun kv =>
      match caller.lookup kv.1 with
      | some v => (kv.1, v)
      | none => kv).lookup k
      = (dflt.lookup k).map fun w => (caller.lookup k).getD w := by
  induction dflt with
  | nil => simp
  | cons kv d ih =>
    obtain ⟨k1, v1⟩ := kv
    by_cases hk : k = k1
    · subst hk
      cases hc : caller.lookup k <;> simp [List.lookup, hc]
    · have hb : (k == k1) = false := by simp [hk]
      cases hc : caller.lookup k1 <;> simp [List.lookup, hc, hb, ih]

/-- Lookup in the caller-only part of `mergeArgs`: for a key the default
does not define, filtering away default-covered keys is invisible. -/
theorem lookup_filter_merge (dflt caller : SaveArgs) (k : String)
    (h : dflt.lookup k = none) :
    (caller.filter fun kv => (dflt.lookup kv.1).isNone).lookup k
      = caller.lookup k := by
  induction caller with
  | nil => simp
  | cons kv c ih =>
    obtain ⟨k1, v1⟩ := kv
    by_cases hk : k = k1
    · subst hk
      simp [List.filter, h, List.lookup]
    · have hb : (k == k1) = false := by simp [hk]
      cases hp : (dflt.lookup k1).isNone <;>
        simp [List.filter, hp, List.lookup, hb, ih]

/-- The effective options after merging: the caller's value where the
caller supplies the key, the default's value otherwise. -/
theorem lookup_mergeArgs (dflt caller : SaveArgs) (k : String) :
    (mergeArgs dflt caller).lookup k =
      match caller.lookup k with
      | some v => some v
      | none => dflt.lookup k := by
  unfold mergeArgs
  cases hc : caller.lookup k with
  | some v =>
    cases hd : dflt.lookup k with
    | some w =>
      apply lookup_append_some
      rw [lookup_map_merge, hd, hc]
      rfl
    | none =>
      rw [lookup_append_none]
      · rw [lookup_filter_merge _ _ _ hd, hc]
      · rw [lookup_map_merge, hd]
        rfl
  | none =>
    cases hd : dflt.lookup k with
    | some w =>
      apply lookup_append_some
      rw [lookup_map_merge, hd, hc]
      rfl
    | none =>
      rw [lookup_append_none]
      · rw [lookup_filter_merge _ _ _ hd, hc]
      · rw [lookup_map_merge, hd]
        rfl

/-- Merging no caller options leaves exactly the default options. -/
theorem mergeArgs_default_nil : mergeArgs DEFAULT_SAVE_ARGS [] = DEFAULT_SAVE_ARGS := by
  rfl

/-- After the class has been registered in the process state, no further
construction emits the deprecation notice. -/
theorem constructMany_count_warned
    (args : List (FsPath × Option SaveArgs × Option Version))
    (st : ProcState) (h : "YAMLLocalDataSet" ∈ st.warned) :
    (constructMany args st).1 = 0 := by
  induction args generalizing st with
  | nil => rfl
  | cons a rest ih =>
    obtain ⟨fp, sa, ver⟩ := a
    simp [constructMany, constructDataSet, deprecation_notice, h, ih st h]

/-- The handle is threaded through any call sequence unchanged. -/
theorem runOps_handle (ops : List DsOp) (ds : YAMLLocalDataSet)
    (fs : FileSystem) : (runOps ds fs ops).1 = ds := by
  induction ops generalizing ds fs with
  | nil => rfl
  | cons op rest ih => cases op <;> simp [runOps, runOp, ih]

/-! ## The claims -/

/-- C1.  Round-trip: for every payload representable in the (modelled)
YAML format, saving it and then loading it back through an unversioned
dataset returns exactly the payload; in particular this holds for the
docstring mapping `{"a_string": "Hello, World!", "a_list": [1, 2, 3]}`
(see the witness). -/
theorem claim_C1 (ds : YAMLLocalDataSet) (data : YVal) (fs : FileSystem)
    (h : ds.version = none) :
    (datasetLoad ds ((datasetSave ds data fs).1)).1 = .ok data := by
  simp [datasetLoad, datasetSave, resolveLoadPath, resolveSavePath, h,
    writeFile, mkdirParents, readFile, List.lookup, yamlSafeLoad_dumpVal]

/-- Witness for C1: the docstring example — save
`{"a_string": "Hello, World!", "a_list": [1, 2, 3]}` to `out/config.yml`
on an empty file system, then load; the result is the original mapping. -/
theorem claim_C1_witness :
    exampleDataSet.version = none ∧
    (datasetLoad exampleDataSet
      ((datasetSave exampleDataSet examplePayload emptyFS).1)).1 =
      .ok examplePayload :=
  ⟨rfl, claim_C1 exampleDataSet examplePayload emptyFS rfl⟩

/-- C2.  The effective serialization options are the caller-supplied
options merged over the documented default
`{default_flow_style: False}`: a key the caller supplies takes the
caller's value; a key the caller does not supply takes the default's
value; and with no caller options the effective options are exactly
`DEFAULT_SAVE_ARGS`. -/
theorem claim_C2 (fp : FsPath) (ver : Option Version) (caller : SaveArgs)
    (k : String) (v : YOpt) :
    (caller.lookup k = some v →
      (mkDataSet fp (some caller) ver).save_args.lookup k = some v) ∧
    (caller.lookup k = none →
      (mkDataSet fp (some caller) ver).save_args.lookup k
        = DEFAULT_SAVE_ARGS.lookup k) ∧
    (mkDataSet fp none ver).save_args = DEFAULT_SAVE_ARGS := by
  refine ⟨?_, ?_, ?_⟩
  · intro h
    simp [mkDataSet, lookup_mergeArgs, h]
  · intro h
    simp [mkDataSet, lookup_mergeArgs, h]
  · rfl

/-- Witness for C2: a caller override `{default_flow_style: True}` wins
over the default; an unrelated key (`width`) falls back to the default
options (which do not define it); and no caller options give exactly
`{default_flow_style: False}`. -/
theorem claim_C2_witness :
    (mkDataSet ["out", "config.yml"]
      (some [("default_flow_style", .bool true)]) none).save_args.lookup
        "default_flow_style" = some (.bool true) ∧
    (mkDataSet ["out", "config.yml"]
      (some [("default_flow_style", .bool true)]) none).save_args.lookup
        "width" = DEFAULT_SAVE_ARGS.lookup "width" ∧
    (mkDataSet ["out", "config.yml"] none none).save_args
      = DEFAULT_SAVE_ARGS :=
  ⟨(claim_C2 ["out", "config.yml"] none [("default_flow_style", .bool true)]
      "default_flow_style" (.bool true)).1 (by simp),
   (claim_C2 ["out", "config.yml"] none [("default_flow_style", .bool true)]
      "width" (.bool true)).2.1 (by simp [List.lookup]),
   (claim_C2 ["out", "config.yml"] none [] "width" (.bool true)).2.2⟩

/-- C3.  Load parses with safe (untrusted-input) rules: the parse is
restricted to plain scalars, sequences and mappings (the `YVal` type),
and a file containing an object-construction tag never loads a value —
it fails with `ParseError`. -/
theorem claim_C3 (ds : YAMLLocalDataSet) (fs : FileSystem) (p : FsPath)
    (c : List YToken) (s : String)
    (hres : resolveLoadPath ds fs = some p)
    (hread : readFile fs p = some c)
    (htag : YToken.tTag s ∈ c) :
    (datasetLoad ds fs).1 = .error .parseError := by
  have hsafe := yamlSafeLoad_of_tag c s htag
  simp [datasetLoad, hres, hread, hsafe]

/-- Witness for C3: a file carrying a `python/object` tag fails to load
with `ParseError` rather than constructing an object. -/
theorem claim_C3_witness :
    (datasetLoad taggedDataSet taggedFS).1 = .error .parseError :=
  claim_C3 taggedDataSet taggedFS ["obj.yml"]
    [.tTag "tag:yaml.org,2002:python/object:os.system"]
    "tag:yaml.org,2002:python/object:os.system" rfl rfl (by simp)

/-- C4.  When the resolved load path has no file, `load` fails with the
typed `NotFoundError` (distinguished from the other `LoadError`
constructors); when the file exists but its contents do not parse,
`load` fails with `ParseError`. -/
theorem claim_C4 (ds : YAMLLocalDataSet) (fs : FileSystem) (p : FsPath)
    (hres : resolveLoadPath ds fs = some p) :
    (readFile fs p = none → (datasetLoad ds fs).1 = .error .notFound) ∧
    (∀ c, readFile fs p = some c → yamlSafeLoad c = none →
      (datasetLoad ds fs).1 = .error .parseError) := by
  constructor
  · intro h
    simp [datasetLoad, hres, h]
  · intro c hc hp
    simp [datasetLoad, hres, hc, hp]

/-- Witness for C4: loading `out/config.yml` from an empty file system
gives `NotFoundError`; loading a present but malformed file gives
`ParseError`. -/
theorem claim_C4_witness :
    (datasetLoad exampleDataSet emptyFS).1 = .error .notFound ∧
    (datasetLoad malformedDataSet malformedFS).1 = .error .parseError :=
  ⟨(claim_C4 exampleDataSet emptyFS ["out", "config.yml"] rfl).1 rfl,
   (claim_C4 malformedDataSet malformedFS ["bad.yml"] rfl).2
     [.tSeqEnd] rfl rfl⟩

/-- C5.  `save` creates every missing parent directory of the resolved
save path (recursively), and afterwards the file at that path holds
exactly the serialized payload — regardless of the file system before
the call (in particular when no parent directory existed, and replacing
any previous content). -/
theorem claim_C5 (ds : YAMLLocalDataSet) (data : YVal) (fs : FileSystem) :
    (∀ q ∈ parentDirs (resolveSavePath ds),
      q ∈ ((datasetSave ds data fs).1).dirs) ∧
    readFile ((datasetSave ds data fs).1) (resolveSavePath ds)
      = some (dumpVal data) := by
  constructor
  · intro q hq
    simp [datasetSave, writeFile, mkdirParents]
    exact Or.inl hq
  · simp [datasetSave, writeFile, mkdirParents, readFile, List.lookup]

/-- Witness for C5: saving the docstring payload to `out/config.yml` on
an empty file system creates the parent directory `out` and stores the
serialized payload. -/
theorem claim_C5_witness :
    ["out"] ∈ ((datasetSave exampleDataSet examplePayload emptyFS).1).dirs ∧
    readFile ((datasetSave exampleDataSet examplePayload emptyFS).1)
      (resolveSavePath exampleDataSet) = some (dumpVal examplePayload) :=
  ⟨(claim_C5 exampleDataSet examplePayload emptyFS).1 ["out"] (by decide),
   (claim_C5 exampleDataSet examplePayload emptyFS).2⟩

/-- C6.  `exists` resolves the load path and reports whether a regular
file is present there: a failed resolution (no version yet) yields
`false` rather than an error, a successful resolution yields exactly
`isFile`, and the operation never reads a file's contents. -/
theorem claim_C6 (ds : YAMLLocalDataSet) (fs : FileSystem) :
    (resolveLoadPath ds fs = none → (datasetExists ds fs).1 = false) ∧
    (∀ p, resolveLoadPath ds fs = some p →
      (datasetExists ds fs).1 = isFile fs p) ∧
    (∀ p, IOEvent.readF p ∉ (datasetExists ds fs).2) := by
  cases hres : resolveLoadPath ds fs with
  | none => simp [datasetExists, hres]
  | some p =>
    refine ⟨by simp [datasetExists, hres], ?_, ?_⟩
    · intro p' hp'
      cases hp'
      simp [datasetExists, hres]
    · intro p'
      simp [datasetExists, hres]

/-- Witness for C6: on an empty file system, an unpinned versioned
dataset resolves no version and `exists` returns `false`; the docstring
dataset resolves its path and `exists` equals the file check, which is
`false` before any save and `true` immediately after. -/
theorem claim_C6_witness :
    (datasetExists versionedDataSet emptyFS).1 = false ∧
    (datasetExists exampleDataSet emptyFS).1 = isFile emptyFS ["out", "config.yml"] ∧
    (datasetExists exampleDataSet
      ((datasetSave exampleDataSet examplePayload emptyFS).1)).1 = true :=
  ⟨(claim_C6 versionedDataSet emptyFS).1 rfl,
   (claim_C6 exampleDataSet emptyFS).2.1 ["out", "config.yml"] rfl,
   by
    rw [(claim_C6 exampleDataSet
      ((datasetSave exampleDataSet examplePayload emptyFS).1)).2.1
      ["out", "config.yml"] rfl]
    rfl⟩

/-- C7.  `describe` returns the snapshot of the path, the serialization
options and the versioning policy, and performs no I/O: it is a pure
function of the handle (it takes no file system at all) and its event
trace is empty. -/
theorem claim_C7 (ds : YAMLLocalDataSet) :
    (datasetDescribe ds).1.filepath = ds.filepath ∧
    (datasetDescribe ds).1.save_args = ds.save_args ∧
    (datasetDescribe ds).1.version = ds.version ∧
    (datasetDescribe ds).2 = [] := by
  simp [datasetDescribe]

/-- C8.  Across any sequence of constructions in one process the
deprecation notice is emitted at most once; and from a fresh state (the
class not yet registered) a non-empty sequence emits it exactly once —
not once per construction. -/
theorem claim_C8 (args : List (FsPath × Option SaveArgs × Option Version))
    (st : ProcState) :
    (constructMany args st).1 ≤ 1 ∧
    ("YAMLLocalDataSet" ∉ st.warned → args ≠ [] →
      (constructMany args st).1 = 1) := by
  constructor
  · induction args generalizing st with
    | nil => simp [constructMany]
    | cons a rest ih =>
      obtain ⟨fp, sa, ver⟩ := a
      by_cases h : "YAMLLocalDataSet" ∈ st.warned
      · have h0 := constructMany_count_warned rest st h
        simp [constructMany, constructDataSet, deprecation_notice, h, h0]
      · have h0 := constructMany_count_warned rest
          { warned := "YAMLLocalDataSet" :: st.warned } (by simp)
        simp [constructMany, constructDataSet, deprecation_notice, h, h0]
  · intro hnot hne
    cases args with
    | nil => exact absurd rfl hne
    | cons a rest =>
      obtain ⟨fp, sa, ver⟩ := a
      have h0 := constructMany_count_warned rest
        { warned := "YAMLLocalDataSet" :: st.warned } (by simp)
      simp [constructMany, constructDataSet, deprecation_notice, hnot, h0]

/-- Witness for C8: three consecutive constructions in a fresh process
emit exactly one notice. -/
theorem claim_C8_witness :
    (constructMany
      [(["a.yml"], none, none), (["b.yml"], none, none),
       (["c.yml"], none, none)] { warned := [] }).1 ≤ 1 ∧
    (constructMany
      [(["a.yml"], none, none), (["b.yml"], none, none),
       (["c.yml"], none, none)] { warned := [] }).1 = 1 :=
  ⟨(claim_C8 _ _).1,
   (claim_C8
      [(["a.yml"], none, none), (["b.yml"], none, none),
       (["c.yml"], none, none)] { warned := [] }).2 (by simp) (by simp)⟩

/-- C9.  The handle is immutable: across any sequence of load, save,
exists and describe calls, the stored filepath, serialization options
and versioning policy are identical before and after (no operation
rebuilds or mutates the handle). -/
theorem claim_C9 (ds : YAMLLocalDataSet) (fs : FileSystem)
    (ops : List DsOp) :
    (runOps ds fs ops).1.filepath = ds.filepath ∧
    (runOps ds fs ops).1.save_args = ds.save_args ∧
    (runOps ds fs ops).1.version = ds.version := by
  simp [runOps_handle]

/-- C10.  `load` returns exactly what the safe parser yields: for a
zero-byte resolved file it succeeds with the null value (`None`), not an
empty mapping and not an error. -/
theorem claim_C10 (ds : YAMLLocalDataSet) (fs : FileSystem) (p : FsPath)
    (hres : resolveLoadPath ds fs = some p)
    (hread : readFile fs p = some []) :
    (datasetLoad ds fs).1 = .ok .null := by
  simp [datasetLoad, hres, hread, yamlSafeLoad]

/-- Witness for C10: loading a present zero-byte file succeeds and
returns null. -/
theorem claim_C10_witness :
    (datasetLoad emptyFileDataSet emptyFileFS).1 = .ok .null :=
  claim_C10 emptyFileDataSet emptyFileFS ["empty.yml"] rfl rfl

end YamlLocal
